import Mathlib

/-!
Verification of the pjourney Roll & Development Lifecycle Engine.

This file gives a shallow embedding of the engine code:
  * `src/pjourney/db/database.py` — the storage layer (SQLite), modelled as
    pure transformations of a `DB` record of table lists.  Each storage
    function in the source issues its statements and then calls
    `conn.commit()` exactly once at the end; a statement failure inside a
    call raises before that commit, so the committed state a caller
    observes is either the call's full effect or the unchanged input.
    SQLite specifics carried over: `MAX(x - 1, 0)` clamping, the
    `UNIQUE` constraint on `roll_development.roll_id`, and the
    `ON DELETE CASCADE` rules of the schema (foreign keys are switched on
    in `get_connection`), which are folded into the delete primitives.
  * `src/pjourney/screens/rolls.py` — the roll-lifecycle controller.
    Modal dialogs are modelled by their `save` validators (pure functions
    from the form fields to an optional result; `None` means the modal
    did not dismiss and nothing is written), and the multi-call flows
    (`action_load`, `action_advance_status`, `_start_developing_flow`)
    are modelled with an explicit optional failure point `failAt`:
    `failAt = some k` means the k-th storage call of the flow raises
    before its commit, the surrounding `except` handler reports the
    error, and the remaining calls are skipped.

Machine integers are `Int`/`Nat`.  Dates are stored as the ISO text the
sqlite adapter writes (`date.isoformat`), and "today" is a `PyDate`
argument.  Python floats (`push_pull_stops`, `cost_amount`) never enter
any computation verified here; they are carried as `Int` values in the
finest granularity the UI offers (half stops, cents), which the claims
never inspect arithmetically.
-/

namespace PJourney

/-! ### Characters, digits and Python `int()` / `str.strip()` -/

/-- Whether a character is an ASCII decimal digit `'0'..'9'` (the
characters Python's `int()` and `date.fromisoformat` accept as digits). -/
def isDig (c : Char) : Bool := 48 ≤ c.toNat && c.toNat ≤ 57

/-- Whitespace stripped by Python's `str.strip()`: space and the control
characters `\t \n \v \f \r` (codes 9–13).  The exotic unicode whitespace
Python also strips never occurs in this application's inputs. -/
def isPySpace (c : Char) : Bool :=
  c.toNat == 32 || (9 ≤ c.toNat && c.toNat ≤ 13)

/-- `str.strip()` on a character list: drop whitespace from both ends. -/
def stripChars (cs : List Char) : List Char :=
  ((cs.dropWhile isPySpace).reverse.dropWhile isPySpace).reverse

/-- `str.strip()` on a string. -/
def pyStrip (s : String) : String := ⟨stripChars s.data⟩

/-- The decimal digit character for a value `0 ≤ k ≤ 9`. -/
def digitChar (k : Nat) : Char :=
  match k with
  | 0 => '0' | 1 => '1' | 2 => '2' | 3 => '3' | 4 => '4'
  | 5 => '5' | 6 => '6' | 7 => '7' | 8 => '8' | 9 => '9'
  | _ => '*'

/-- Fuel-driven worker for `natToDigits`; the fuel is structural so the
kernel can evaluate it (`n < fuel` always holds at call sites). -/
def natToDigitsAux : Nat → Nat → List Char
  | 0, _ => []
  | fuel + 1, n =>
    if n < 10 then [digitChar n]
    else natToDigitsAux fuel (n / 10) ++ [digitChar (n % 10)]

/-- Decimal representation of a natural number (Python `str`/`f"{n}"`
formatting of a non-negative integer). -/
def natToDigits (n : Nat) : List Char := natToDigitsAux (n + 1) n

/-- Value of a digit string, most significant digit first (no validity
check; callers check `isDig` separately). -/
def digitsToNat (cs : List Char) : Nat :=
  cs.foldl (fun a c => a * 10 + (c.toNat - 48)) 0

/-- Worker for `pyIntOfChars` on an already-stripped character list:
optional sign, then a non-empty digit run. -/
def pyIntCore : List Char → Option Int
  | [] => none
  | c :: rest =>
    if c = '+' then
      if !rest.isEmpty && rest.all isDig then some (digitsToNat rest : Int) else none
    else if c = '-' then
      if !rest.isEmpty && rest.all isDig then some (-(digitsToNat rest : Int)) else none
    else
      if (c :: rest).all isDig then some (digitsToNat (c :: rest) : Int) else none

/-- Python `int(s)` on a character list: strip whitespace, optional sign,
then a non-empty digit run.  (The underscore digit grouping Python also
accepts is not modelled; no caller ever produces it.) -/
def pyIntOfChars (cs : List Char) : Option Int :=
  pyIntCore (stripChars cs)

/-- `s.split(sep, 1)` when `sep` occurs in `s`: the part before the first
separator and everything after it. -/
def splitFirst (sep : Char) (cs : List Char) : List Char × List Char :=
  (cs.takeWhile (fun x => !(x == sep)), (cs.dropWhile (fun x => !(x == sep))).tail)

/-- Python `f"{n:02d}"` for a non-negative value: left-pad the decimal
representation with zeros to width two. -/
def pad2 (n : Nat) : List Char :=
  if n < 10 then '0' :: natToDigits n else natToDigits n

/-- Python `f"{n:04d}"` for a non-negative value: left-pad the decimal
representation with zeros to width four. -/
def pad4 (n : Nat) : List Char :=
  if n < 10 then '0' :: '0' :: '0' :: natToDigits n
  else if n < 100 then '0' :: '0' :: natToDigits n
  else if n < 1000 then '0' :: natToDigits n
  else natToDigits n

/-- Decimal representation of a Python integer, sign included. -/
def intDec (i : Int) : List Char :=
  if i < 0 then '-' :: natToDigits i.natAbs else natToDigits i.toNat

/-! ### The step-duration helpers of `screens/rolls.py` -/

/-- `_parse_duration` (rolls.py): parse `'MM:SS'` or a plain seconds
string into integer seconds; `none` if unparseable. -/
def parse_duration (raw : String) : Option Int :=
  let cs := stripChars raw.data
  if cs.isEmpty then none
  else if cs.contains ':' then
    let parts := splitFirst ':' cs
    match pyIntOfChars parts.1, pyIntOfChars parts.2 with
    | some minutes, some seconds => some (minutes * 60 + seconds)
    | _, _ => none
  else pyIntOfChars cs

/-- `_format_duration` (rolls.py): format integer seconds as `'M:SS'`;
`''` if `none`.  Python `//` and `%` are floor division and modulo,
hence `Int.fdiv` / `Int.fmod`. -/
def format_duration : Option Int → String
  | none => ""
  | some seconds =>
    let m := Int.fdiv seconds 60
    let s := Int.fmod seconds 60
    ⟨intDec m ++ ':' :: pad2 s.toNat⟩

/-! ### Dates (`datetime.date`) -/

/-- A calendar date as Python's `datetime.date` holds it. -/
structure PyDate where
  year : Nat
  month : Nat
  day : Nat
deriving Repr, DecidableEq

/-- Gregorian leap-year rule, as `calendar.isleap` / `datetime` use it. -/
def isLeapYear (y : Nat) : Bool :=
  y % 4 == 0 && (y % 100 != 0 || y % 400 == 0)

/-- Number of days in a month of a given year. -/
def daysInMonth (y m : Nat) : Nat :=
  if m == 2 then (if isLeapYear y then 29 else 28)
  else if m == 4 || m == 6 || m == 9 || m == 11 then 30
  else 31

/-- The range checks `datetime.date(y, m, d)` performs
(`MINYEAR = 1`, `MAXYEAR = 9999`). -/
def PyDate.validB (d : PyDate) : Bool :=
  1 ≤ d.year && d.year ≤ 9999 && 1 ≤ d.month && d.month ≤ 12 &&
    1 ≤ d.day && d.day ≤ daysInMonth d.year d.month

/-- `date.isoformat()` / the sqlite adapter's stored text:
`f"{y:04d}-{m:02d}-{d:02d}"`. -/
def date_isoformat (d : PyDate) : String :=
  ⟨pad4 d.year ++ '-' :: pad2 d.month ++ '-' :: pad2 d.day⟩

/-- `date.fromisoformat` on the canonical dashed form `YYYY-MM-DD` (the
format the UI documents and the app itself writes; the further ISO-8601
shapes the library accepts since Python 3.11 are not modelled). -/
def date_fromisoformat (s : String) : Option PyDate :=
  match s.data with
  | [y1, y2, y3, y4, s1, m1, m2, s2, d1, d2] =>
    if (s1 == '-') && (s2 == '-') && [y1, y2, y3, y4, m1, m2, d1, d2].all isDig then
      let d : PyDate :=
        { year := digitsToNat [y1, y2, y3, y4]
          month := digitsToNat [m1, m2]
          day := digitsToNat [d1, d2] }
      if d.validB then some d else none
    else none
  | _ => none

/-! ### Data model (`db/models.py` dataclasses, restricted to the tables
the lifecycle engine touches).  `id = none` marks an unsaved record, as
in the dataclasses; stored rows carry `some` ids.  `created_at`
timestamps (SQLite `CURRENT_TIMESTAMP` defaults) take no part in any
claim and are left at `none`. -/

/-- `FilmStock` dataclass / `film_stocks` table. -/
structure FilmStock where
  id : Option Nat := none
  user_id : Nat := 0
  brand : String := ""
  name : String := ""
  type : String := "color"
  media_type : String := "analog"
  iso : Int := 400
  format : String := "35mm"
  frames_per_roll : Int := 36
  quantity_on_hand : Int := 0
  notes : String := ""
  created_at : Option String := none
deriving Repr, DecidableEq

/-- `ROLL_STATUSES` (models.py): the fixed forward status sequence. -/
def ROLL_STATUSES : List String :=
  ["fresh", "loaded", "shooting", "finished", "developing", "developed"]

/-- `Roll` dataclass / `rolls` table.  Date columns hold the ISO text the
sqlite adapter writes.  `push_pull_stops` is a float in the source with
half-stop granularity (the load modal offers `i * 0.5`, `-6 ≤ i ≤ 6`);
it is carried here as the integer count of half stops. -/
structure Roll where
  id : Option Nat := none
  user_id : Nat := 0
  film_stock_id : Nat := 0
  camera_id : Option Nat := none
  lens_id : Option Nat := none
  status : String := "fresh"
  loaded_date : Option String := none
  finished_date : Option String := none
  sent_for_dev_date : Option String := none
  developed_date : Option String := none
  notes : String := ""
  title : String := ""
  push_pull_stops : Int := 0
  scan_date : Option String := none
  scan_notes : String := ""
  location : String := ""
  created_at : Option String := none
deriving Repr, DecidableEq

/-- `Frame` dataclass / `frames` table. -/
structure Frame where
  id : Option Nat := none
  roll_id : Nat := 0
  frame_number : Nat := 0
  subject : String := ""
  aperture : String := ""
  shutter_speed : String := ""
  lens_id : Option Nat := none
  date_taken : Option String := none
  location : String := ""
  notes : String := ""
deriving Repr, DecidableEq

/-- `RollDevelopment` dataclass / `roll_development` table (the table has
a `UNIQUE` constraint on `roll_id`).  `cost_amount` is a float in the
source; it is carried as integer cents and never computed with. -/
structure RollDevelopment where
  id : Option Nat := none
  roll_id : Nat := 0
  dev_type : String := "self"
  process_type : Option String := none
  lab_name : Option String := none
  lab_contact : Option String := none
  cost_amount : Option Int := none
  notes : String := ""
  created_at : Option String := none
deriving Repr, DecidableEq

/-- `DevelopmentStep` dataclass / `development_steps` table. -/
structure DevelopmentStep where
  id : Option Nat := none
  development_id : Nat := 0
  step_order : Nat := 0
  chemical_name : String := ""
  temperature : String := ""
  duration_seconds : Option Int := none
  agitation : String := ""
  notes : String := ""
deriving Repr, DecidableEq

/-- The committed state of the store: the lifecycle engine's five tables
plus the `AUTOINCREMENT` counters.  Rows appear in insertion order;
`frames` and `development_steps` are only ever inserted in
`frame_number` / `step_order` order (see `create_roll` and
`save_roll_development`), so the source's `ORDER BY` on reads is the
identity on this representation. -/
structure DB where
  film_stocks : List FilmStock := []
  rolls : List Roll := []
  frames : List Frame := []
  roll_development : List RollDevelopment := []
  development_steps : List DevelopmentStep := []
  next_stock_id : Nat := 1
  next_roll_id : Nat := 1
  next_frame_id : Nat := 1
  next_dev_id : Nat := 1
  next_step_id : Nat := 1
deriving Repr, DecidableEq

/-- `sqlite3.IntegrityError` and friends, as the storage layer surfaces
them.  A raised error aborts the call before its `commit`, so the
committed state is unchanged. -/
inductive DBError where
  | constraintViolation
deriving Repr, DecidableEq

/-! ### Storage layer (`db/database.py`) -/

/-- `get_film_stock`: `SELECT * FROM film_stocks WHERE id = ?`. -/
def get_film_stock (db : DB) (stock_id : Nat) : Option FilmStock :=
  db.film_stocks.find? (fun s => s.id == some stock_id)

/-- `get_roll`: `SELECT * FROM rolls WHERE id = ?`. -/
def get_roll (db : DB) (roll_id : Nat) : Option Roll :=
  db.rolls.find? (fun r => r.id == some roll_id)

/-- `get_frames`: `SELECT * FROM frames WHERE roll_id = ? ORDER BY
frame_number` (rows are stored in `frame_number` order, see `DB`). -/
def get_frames (db : DB) (roll_id : Nat) : List Frame :=
  db.frames.filter (fun f => f.roll_id == roll_id)

/-- `get_roll_development`: `SELECT * FROM roll_development WHERE id = ?`. -/
def get_roll_development (db : DB) (dev_id : Nat) : Option RollDevelopment :=
  db.roll_development.find? (fun d => d.id == some dev_id)

/-- `get_roll_development_by_roll`: `SELECT * FROM roll_development WHERE
roll_id = ?`. -/
def get_roll_development_by_roll (db : DB) (roll_id : Nat) : Option RollDevelopment :=
  db.roll_development.find? (fun d => d.roll_id == roll_id)

/-- `get_development_steps`: `SELECT * FROM development_steps WHERE
development_id = ? ORDER BY step_order` (rows are stored in `step_order`
order, see `DB`). -/
def get_development_steps (db : DB) (development_id : Nat) : List DevelopmentStep :=
  db.development_steps.filter (fun s => s.development_id == development_id)

/-- `create_roll`: insert the roll row (the `INSERT` column list omits
`scan_date`/`scan_notes`, which take their schema defaults), pre-populate
one frame per unit of `frames_per_roll` numbered `1..N` and seeded with
the roll's default lens (`range(1, n + 1)` is empty for `n ≤ 0`), then
`UPDATE film_stocks SET quantity_on_hand = MAX(quantity_on_hand - 1, 0)`;
one commit at the end.  Returns the new roll's id alongside the state
(the source returns `get_roll(conn, roll_id)`). -/
def create_roll (db : DB) (roll : Roll) (frames_per_roll : Int) : DB × Nat :=
  let roll_id := db.next_roll_id
  let newRoll : Roll :=
    { roll with id := some roll_id, scan_date := none, scan_notes := "" }
  let newFrames : List Frame :=
    (List.range frames_per_roll.toNat).map (fun i =>
      { id := some (db.next_frame_id + i), roll_id := roll_id,
        frame_number := i + 1, lens_id := roll.lens_id })
  let db' : DB :=
    { db with
      rolls := db.rolls ++ [newRoll]
      frames := db.frames ++ newFrames
      film_stocks := db.film_stocks.map (fun s =>
        if s.id == some roll.film_stock_id then
          { s with quantity_on_hand := max (s.quantity_on_hand - 1) 0 }
        else s)
      next_roll_id := db.next_roll_id + 1
      next_frame_id := db.next_frame_id + frames_per_roll.toNat }
  (db', roll_id)

/-- The field assignments of `update_roll`'s `UPDATE rolls SET ...`
(`user_id` and `created_at` are not in the column list). -/
def applyRollUpdate (r roll : Roll) : Roll :=
  { r with
    film_stock_id := roll.film_stock_id
    camera_id := roll.camera_id
    lens_id := roll.lens_id
    status := roll.status
    loaded_date := roll.loaded_date
    finished_date := roll.finished_date
    sent_for_dev_date := roll.sent_for_dev_date
    developed_date := roll.developed_date
    notes := roll.notes
    title := roll.title
    push_pull_stops := roll.push_pull_stops
    scan_date := roll.scan_date
    scan_notes := roll.scan_notes
    location := roll.location }

/-- `update_roll`: `UPDATE rolls SET ... WHERE id = ?`, one commit. -/
def update_roll (db : DB) (roll : Roll) : DB :=
  { db with
    rolls := db.rolls.map (fun r =>
      if roll.id.isSome && (r.id == roll.id) then applyRollUpdate r roll else r) }

/-- `set_roll_frames_lens`: `UPDATE frames SET lens_id = ? WHERE
roll_id = ?`, one commit. -/
def set_roll_frames_lens (db : DB) (roll_id : Nat) (lens_id : Option Nat) : DB :=
  { db with
    frames := db.frames.map (fun f =>
      if f.roll_id == roll_id then { f with lens_id := lens_id } else f) }

/-- `delete_roll`: `DELETE FROM frames WHERE roll_id = ?` then `DELETE
FROM rolls WHERE id = ?`, one commit.  Deleting the roll row fires the
schema's referential rules (`roll_development.roll_id ... ON DELETE
CASCADE`, `development_steps.development_id ... ON DELETE CASCADE`),
which remove the roll's development record and, through it, its steps —
no application statement touches those two tables.  `film_stocks` is
untouched. -/
def delete_roll (db : DB) (roll_id : Nat) : DB :=
  let db1 : DB := { db with frames := db.frames.filter (fun f => !(f.roll_id == roll_id)) }
  let removedDevs := db1.roll_development.filter (fun d => d.roll_id == roll_id)
  { db1 with
    rolls := db1.rolls.filter (fun r => !(r.id == some roll_id))
    roll_development := db1.roll_development.filter (fun d => !(d.roll_id == roll_id))
    development_steps := db1.development_steps.filter (fun s =>
      !(removedDevs.any (fun d => d.id == some s.development_id))) }

/-- The field assignments of `save_roll_development`'s `UPDATE
roll_development SET ...` (`roll_id` and `created_at` are not in the
column list). -/
def applyDevUpdate (d dev : RollDevelopment) : RollDevelopment :=
  { d with
    dev_type := dev.dev_type
    process_type := dev.process_type
    lab_name := dev.lab_name
    lab_contact := dev.lab_contact
    cost_amount := dev.cost_amount
    notes := dev.notes }

/-- The rows `save_roll_development` bulk-inserts for the supplied step
list: `for i, step in enumerate(steps)` with `step_order = i`. -/
def insertedSteps (dev_id first_step_id : Nat) (steps : List DevelopmentStep) :
    List DevelopmentStep :=
  steps.enum.map (fun p =>
    { id := some (first_step_id + p.1), development_id := dev_id, step_order := p.1,
      chemical_name := p.2.chemical_name, temperature := p.2.temperature,
      duration_seconds := p.2.duration_seconds, agitation := p.2.agitation,
      notes := p.2.notes })

/-- `save_roll_development`: insert (`dev.id is None`) or update the
record, then replace its steps, one commit at the end.  The insert path
hits the `UNIQUE` constraint on `roll_id` when the roll already has a
record: `sqlite3.IntegrityError` is raised before any commit, so the
committed state is returned unchanged.  The update path updates the
fields (`roll_id` untouched), deletes all existing steps of the record
and re-inserts the supplied list with `step_order` reassigned from list
position.  (If the updated id does not exist, inserting a step would
violate the `development_steps.development_id` foreign key — also a
pre-commit `IntegrityError`.)  Returns the record id with the state (the
source returns `get_roll_development(conn, dev_id)`). -/
def save_roll_development (db : DB) (dev : RollDevelopment)
    (steps : List DevelopmentStep) : DB × Except DBError Nat :=
  match dev.id with
  | none =>
    if db.roll_development.any (fun d => d.roll_id == dev.roll_id) then
      (db, .error .constraintViolation)
    else
      let dev_id := db.next_dev_id
      let newDev : RollDevelopment := { dev with id := some dev_id }
      ({ db with
         roll_development := db.roll_development ++ [newDev]
         development_steps :=
           db.development_steps ++ insertedSteps dev_id db.next_step_id steps
         next_dev_id := db.next_dev_id + 1
         next_step_id := db.next_step_id + steps.length },
       .ok dev_id)
  | some dev_id =>
    if !(db.roll_development.any (fun d => d.id == some dev_id)) && !steps.isEmpty then
      (db, .error .constraintViolation)
    else
      ({ db with
         roll_development := db.roll_development.map (fun d =>
           if d.id == some dev_id then applyDevUpdate d dev else d)
         development_steps :=
           (db.development_steps.filter (fun s => !(s.development_id == dev_id)))
             ++ insertedSteps dev_id db.next_step_id steps
         next_step_id := db.next_step_id + steps.length },
       .ok dev_id)

/-! ### Screen layer (`screens/rolls.py`)

Modal `save` handlers are modelled as pure validators from the form
fields to the value the modal dismisses with; `none` means the handler
returned without dismissing (validation rejected) and no database write
can follow.  The multi-call controller flows take the chosen modal
results as arguments and an optional `failAt`: `failAt = some k` makes
the flow's k-th storage call raise before its commit (a
`StorageFailure`), upon which the surrounding `except` handler reports
`DB_SAVE` and the remaining calls are skipped. -/

/-- One step row of the `SelfDevelopModal` form. -/
structure StepRowInput where
  chemical : String := ""
  temp : String := ""
  duration : String := ""
  agitation : String := ""
deriving Repr, DecidableEq

/-- `SelfDevelopModal.save`: collect the step rows, discarding rows whose
chemical name strips to empty; reject (no dismissal) if no steps remain;
otherwise dismiss with a `dev_type = "self"` record and the steps. -/
def selfDevelopModalSave (process_type : Option String) (rows : List StepRowInput)
    (notes : String) : Option (RollDevelopment × List DevelopmentStep) :=
  let steps : List DevelopmentStep := rows.filterMap (fun row =>
    let chemical := pyStrip row.chemical
    if chemical == "" then none
    else some
      { chemical_name := chemical
        temperature := pyStrip row.temp
        duration_seconds := parse_duration (pyStrip row.duration)
        agitation := pyStrip row.agitation })
  if steps.isEmpty then none
  else some
    ({ dev_type := "self", process_type := process_type, notes := pyStrip notes }, steps)

/-- `LabDevelopModal.save`: reject (no dismissal) if the lab name strips
to empty; otherwise dismiss with a `dev_type = "lab"` record and an
empty step list.  (`cost` arrives already parsed: the modal's
`float(cost_raw)` with its silent fallback to `None` is a float detail
outside every claim.) -/
def labDevelopModalSave (lab_name lab_contact : String) (cost : Option Int)
    (notes : String) : Option (RollDevelopment × List DevelopmentStep) :=
  let lab_name := pyStrip lab_name
  if lab_name == "" then none
  else
    let contact := pyStrip lab_contact
    some
      ({ dev_type := "lab", lab_name := some lab_name,
         lab_contact := if contact == "" then none else some contact,
         cost_amount := cost, notes := pyStrip notes }, [])

/-- `ScanRollModal.save`: a blank date defaults to `str(date.today())`;
an unparseable date raises `VAL_DATE` and does not dismiss; otherwise
dismiss with the date text and stripped notes. -/
def scanRollModalSave (dateInput notes : String) (today : PyDate) :
    Option (String × String) :=
  let date_str := pyStrip dateInput
  let date_str := if date_str == "" then date_isoformat today else date_str
  match date_fromisoformat date_str with
  | none => none
  | some _ => some (date_str, pyStrip notes)

/-- The `on_result` body of `RollsScreen.action_load` (also inlined in
`action_advance_status`'s fresh branch): set camera/lens/push-pull/
location, status `loaded` and `loaded_date = today` on the roll, then
call 0 `update_roll` and call 1 `set_roll_frames_lens` — two separately
committed storage calls. -/
def loadRollFlow (db : DB) (roll_id : Nat) (roll : Roll) (camera_id : Nat)
    (lens_id : Option Nat) (push_pull : Int) (location : String) (today : PyDate)
    (failAt : Option Nat) : DB :=
  let roll' : Roll :=
    { roll with
      camera_id := some camera_id
      lens_id := lens_id
      push_pull_stops := push_pull
      location := location
      status := "loaded"
      loaded_date := some (date_isoformat today) }
  if failAt = some 0 then db
  else
    let db1 := update_roll db roll'
    if failAt = some 1 then db1
    else set_roll_frames_lens db1 roll_id lens_id

/-- The `on_dev_result` body of `RollsScreen._start_developing_flow`:
set `dev.roll_id`, call 0 `save_roll_development` (whose own
`IntegrityError` also aborts with nothing committed), then stamp the
roll — `self`: status `developed`, both `sent_for_dev_date` and
`developed_date` to today; otherwise (`lab`): status `developing`, only
`sent_for_dev_date` — and call 1 `update_roll`.  Two separately
committed storage calls. -/
def enterDevelopmentFlow (db : DB) (roll : Roll) (dev : RollDevelopment)
    (steps : List DevelopmentStep) (today : PyDate) (failAt : Option Nat) : DB :=
  let dev := { dev with roll_id := roll.id.getD 0 }
  if failAt = some 0 then db
  else
    match save_roll_development db dev steps with
    | (_, .error _) => db
    | (db1, .ok _) =>
      let todayS := some (date_isoformat today)
      let roll' : Roll :=
        if dev.dev_type == "self" then
          { roll with
            status := "developed"
            sent_for_dev_date := todayS
            developed_date := todayS }
        else
          { roll with status := "developing", sent_for_dev_date := todayS }
      if failAt = some 1 then db1
      else update_roll db1 roll'

/-- `RollsScreen._start_developing_flow`: the development-type modal
(`none` = cancelled) followed by the self/lab modal's result (`none` =
cancelled or validation-rejected); only a dismissed result reaches
`on_dev_result`. -/
def startDevelopingFlow (db : DB) (roll : Roll) (devChoice : Option String)
    (modalResult : Option (RollDevelopment × List DevelopmentStep)) (today : PyDate)
    (failAt : Option Nat) : DB :=
  match devChoice with
  | none => db
  | some _ =>
    match modalResult with
    | none => db
    | some (dev, steps) => enterDevelopmentFlow db roll dev steps today failAt

/-- The camera/lens/push-pull/location tuple the `LoadRollModal`
dismisses with. -/
structure LoadInput where
  camera_id : Nat
  lens_id : Option Nat := none
  push_pull : Int := 0
  location : String := ""
deriving Repr, DecidableEq

/-- `RollsScreen.action_advance_status`.  A `fresh` roll is not advanced:
the user is asked to load instead, and only a confirmed, dismissed
`LoadRollModal` (`freshLoad = some _`) runs the load statements —
`freshLoad = none` (declined or cancelled) writes nothing.  Statuses at
the end of `ROLL_STATUSES` return unchanged.  When the next status is
`developing` the development flow takes over.  Otherwise the status is
bumped one step, stamping `finished_date` / `developed_date` at
`finished` / `developed`, via a single `update_roll` call (call 0). -/
def action_advance_status (db : DB) (roll_id : Nat) (freshLoad : Option LoadInput)
    (devChoice : Option String)
    (devModal : Option (RollDevelopment × List DevelopmentStep)) (today : PyDate)
    (failAt : Option Nat) : DB :=
  match get_roll db roll_id with
  | none => db
  | some roll =>
    if roll.status == "fresh" then
      match freshLoad with
      | none => db
      | some li =>
        loadRollFlow db (roll.id.getD 0) roll li.camera_id li.lens_id li.push_pull
          li.location today failAt
    else
      match ROLL_STATUSES.findIdx? (fun st => st == roll.status) with
      | none => db  -- `list.index` raises ValueError; nothing is written
      | some idx =>
        if ROLL_STATUSES.length - 1 ≤ idx then db
        else
          let next_status := ROLL_STATUSES.getD (idx + 1) ""
          if next_status == "developing" then
            startDevelopingFlow db roll devChoice devModal today failAt
          else if failAt = some 0 then db
          else
            let todayS := date_isoformat today
            let roll' : Roll :=
              { roll with
                status := next_status
                finished_date :=
                  if next_status == "finished" then some todayS else roll.finished_date
                developed_date :=
                  if next_status == "developed" then some todayS else roll.developed_date }
            update_roll db roll'

/-- The `on_result` body of `RollsScreen.action_scan_roll`: a dismissed
scan modal writes the scan date and notes through a single `update_roll`
call (call 0); a cancelled or rejected modal writes nothing. -/
def scanRollFlow (db : DB) (roll : Roll) (modalResult : Option (String × String))
    (failAt : Option Nat) : DB :=
  match modalResult with
  | none => db
  | some (date_str, notes) =>
    if failAt = some 0 then db
    else update_roll db { roll with scan_date := some date_str, scan_notes := notes }

/-! ### Lemmas about digits, decimal formatting and `int()` parsing -/

lemma isDig_digitChar {k : Nat} (h : k < 10) : isDig (digitChar k) = true := by
  interval_cases k <;> decide

lemma toNat_digitChar {k : Nat} (h : k < 10) : (digitChar k).toNat - 48 = k := by
  interval_cases k <;> decide

lemma isDig_spec {c : Char} (h : isDig c = true) : 48 ≤ c.toNat ∧ c.toNat ≤ 57 := by
  simpa [isDig] using h

lemma isDig_ne_plus {c : Char} (h : isDig c = true) : c ≠ '+' := by
  rintro rfl; exact absurd h (by decide)

lemma isDig_ne_minus {c : Char} (h : isDig c = true) : c ≠ '-' := by
  rintro rfl; exact absurd h (by decide)

lemma isPySpace_of_isDig {c : Char} (h : isDig c = true) : isPySpace c = false := by
  have hs := isDig_spec h
  have h32 : (c.toNat == 32) = false := by
    simp only [beq_eq_false_iff_ne, ne_eq]
    omega
  have h13 : (decide (c.toNat ≤ 13)) = false := by
    simp only [decide_eq_false_iff_not, not_le]
    omega
  simp [isPySpace, h32, h13]

lemma beq_colon_of_isDig {c : Char} (h : isDig c = true) : (c == ':') = false := by
  simp only [beq_eq_false_iff_ne, ne_eq]
  rintro rfl; exact absurd h (by decide)

lemma digitsToNat_append (cs : List Char) (c : Char) :
    digitsToNat (cs ++ [c]) = digitsToNat cs * 10 + (c.toNat - 48) := by
  simp [digitsToNat, List.foldl_append]

lemma natToDigitsAux_spec : ∀ fuel n, n < fuel →
    natToDigitsAux fuel n ≠ [] ∧ (∀ c ∈ natToDigitsAux fuel n, isDig c = true) ∧
      digitsToNat (natToDigitsAux fuel n) = n := by
  intro fuel
  induction fuel with
  | zero => intro n h; omega
  | succ f ih =>
    intro n h
    by_cases h10 : n < 10
    · simp only [natToDigitsAux, if_pos h10]
      refine ⟨by simp, ?_, ?_⟩
      · intro c hc
        rw [List.mem_singleton] at hc
        subst hc
        exact isDig_digitChar h10
      · show digitsToNat [digitChar n] = n
        have : digitsToNat [digitChar n] = (digitChar n).toNat - 48 := by
          simp [digitsToNat]
        rw [this, toNat_digitChar h10]
    · have hlt : n / 10 < f := by omega
      obtain ⟨ihne, ihdig, ihval⟩ := ih (n / 10) hlt
      simp only [natToDigitsAux, if_neg h10]
      refine ⟨by simp, ?_, ?_⟩
      · intro c hc
        rcases List.mem_append.mp hc with h1 | h1
        · exact ihdig c h1
        · rw [List.mem_singleton] at h1
          subst h1
          exact isDig_digitChar (Nat.mod_lt _ (by omega))
      · rw [digitsToNat_append, ihval, toNat_digitChar (Nat.mod_lt _ (by omega))]
        omega

lemma natToDigits_ne_nil (n : Nat) : natToDigits n ≠ [] :=
  (natToDigitsAux_spec (n + 1) n (by omega)).1

lemma natToDigits_all_isDig (n : Nat) : ∀ c ∈ natToDigits n, isDig c = true :=
  (natToDigitsAux_spec (n + 1) n (by omega)).2.1

lemma digitsToNat_natToDigits (n : Nat) : digitsToNat (natToDigits n) = n :=
  (natToDigitsAux_spec (n + 1) n (by omega)).2.2

lemma natToDigitsAux_fuel_congr : ∀ f1 f2 n, n < f1 → n < f2 →
    natToDigitsAux f1 n = natToDigitsAux f2 n := by
  intro f1
  induction f1 with
  | zero => intro f2 n h; omega
  | succ f ih =>
    intro f2 n h1 h2
    cases f2 with
    | zero => omega
    | succ g =>
      by_cases h10 : n < 10
      · simp only [natToDigitsAux, if_pos h10]
      · simp only [natToDigitsAux, if_neg h10]
        rw [ih g (n / 10) (by omega) (by omega)]

lemma natToDigits_lt10 {n : Nat} (h : n < 10) : natToDigits n = [digitChar n] := by
  unfold natToDigits
  simp only [natToDigitsAux, if_pos h]

lemma natToDigits_rec {n : Nat} (h : 10 ≤ n) :
    natToDigits n = natToDigits (n / 10) ++ [digitChar (n % 10)] := by
  have step : natToDigitsAux (n + 1) n = natToDigitsAux n (n / 10) ++ [digitChar (n % 10)] := by
    simp only [natToDigitsAux]
    rw [if_neg (by omega : ¬ n < 10)]
  show natToDigitsAux (n + 1) n = _
  rw [step, natToDigitsAux_fuel_congr n (n / 10 + 1) (n / 10) (by omega) (by omega)]
  rfl

lemma natToDigits_length_two {n : Nat} (h1 : 10 ≤ n) (h2 : n < 100) :
    (natToDigits n).length = 2 := by
  rw [natToDigits_rec h1, natToDigits_lt10 (by omega : n / 10 < 10)]
  rfl

lemma natToDigits_length_three {n : Nat} (h1 : 100 ≤ n) (h2 : n < 1000) :
    (natToDigits n).length = 3 := by
  rw [natToDigits_rec (by omega), List.length_append,
    natToDigits_length_two (by omega) (by omega)]
  rfl

lemma natToDigits_length_four {n : Nat} (h1 : 1000 ≤ n) (h2 : n < 10000) :
    (natToDigits n).length = 4 := by
  rw [natToDigits_rec (by omega), List.length_append,
    natToDigits_length_three (by omega) (by omega)]
  rfl

/-! ### Lemmas about stripping and splitting -/

lemma dropWhile_eq_self_of {p : Char → Bool} {cs : List Char}
    (h : ∀ c ∈ cs, p c = false) : cs.dropWhile p = cs := by
  cases cs with
  | nil => rfl
  | cons a t => simp [List.dropWhile_cons, h a (by simp)]

lemma stripChars_eq_self {cs : List Char} (h : ∀ c ∈ cs, isPySpace c = false) :
    stripChars cs = cs := by
  unfold stripChars
  rw [dropWhile_eq_self_of h,
    dropWhile_eq_self_of (fun c hc => h c (List.mem_reverse.mp hc)),
    List.reverse_reverse]

lemma takeWhile_append_sep {sep : Char} {A B : List Char}
    (h : ∀ c ∈ A, (c == sep) = false) :
    (A ++ sep :: B).takeWhile (fun x => !(x == sep)) = A := by
  induction A with
  | nil => simp [List.takeWhile_cons]
  | cons a t ih =>
    simp only [List.cons_append, List.takeWhile_cons, h a (by simp), Bool.not_false,
      if_pos]
    rw [ih (fun c hc => h c (by simp [hc]))]

lemma dropWhile_append_sep {sep : Char} {A B : List Char}
    (h : ∀ c ∈ A, (c == sep) = false) :
    (A ++ sep :: B).dropWhile (fun x => !(x == sep)) = sep :: B := by
  induction A with
  | nil => simp [List.dropWhile_cons]
  | cons a t ih =>
    simp only [List.cons_append, List.dropWhile_cons, h a (by simp), Bool.not_false,
      if_true]
    exact ih (fun c hc => h c (by simp [hc]))

lemma splitFirst_append {sep : Char} {A B : List Char}
    (h : ∀ c ∈ A, (c == sep) = false) :
    splitFirst sep (A ++ sep :: B) = (A, B) := by
  unfold splitFirst
  rw [takeWhile_append_sep h, dropWhile_append_sep h]
  rfl

lemma isEmpty_append_cons (A : List Char) (c : Char) (B : List Char) :
    (A ++ c :: B).isEmpty = false := by
  cases A <;> rfl

lemma contains_append_cons_self (A : List Char) (c : Char) (B : List Char) :
    (A ++ c :: B).contains c = true := by
  induction A with
  | nil => simp
  | cons a t ih => simpa using Or.inr ih

/-! ### Lemmas about `pyIntOfChars` -/

lemma pyIntOfChars_digits {cs : List Char} (hne : cs ≠ [])
    (h : ∀ c ∈ cs, isDig c = true) :
    pyIntOfChars cs = some (digitsToNat cs : Int) := by
  unfold pyIntOfChars
  rw [stripChars_eq_self (fun c hc => isPySpace_of_isDig (h c hc))]
  cases cs with
  | nil => exact absurd rfl hne
  | cons a t =>
    have ha := h a (by simp)
    simp only [pyIntCore]
    rw [if_neg (isDig_ne_plus ha), if_neg (isDig_ne_minus ha),
      if_pos (show ((a :: t).all isDig = true) from List.all_eq_true.mpr h)]

/-! ### Lemmas about zero-padded formatting -/

lemma digitsToNat_cons_zero (cs : List Char) :
    digitsToNat ('0' :: cs) = digitsToNat cs := by
  have h0 : (0 * 10 + ('0'.toNat - 48)) = 0 := by decide
  show List.foldl _ (0 * 10 + ('0'.toNat - 48)) cs = List.foldl _ 0 cs
  rw [h0]

lemma digitsToNat_pad2 (n : Nat) : digitsToNat (pad2 n) = n := by
  unfold pad2
  split
  · rw [digitsToNat_cons_zero, digitsToNat_natToDigits]
  · exact digitsToNat_natToDigits n

lemma digitsToNat_pad4 (n : Nat) : digitsToNat (pad4 n) = n := by
  unfold pad4
  split
  · rw [digitsToNat_cons_zero, digitsToNat_cons_zero, digitsToNat_cons_zero,
      digitsToNat_natToDigits]
  split
  · rw [digitsToNat_cons_zero, digitsToNat_cons_zero, digitsToNat_natToDigits]
  split
  · rw [digitsToNat_cons_zero, digitsToNat_natToDigits]
  · exact digitsToNat_natToDigits n

lemma pad2_all_isDig (n : Nat) : ∀ c ∈ pad2 n, isDig c = true := by
  unfold pad2
  split
  · intro c hc
    rcases List.mem_cons.mp hc with rfl | h1
    · decide
    · exact natToDigits_all_isDig n c h1
  · exact natToDigits_all_isDig n

lemma pad4_all_isDig (n : Nat) : ∀ c ∈ pad4 n, isDig c = true := by
  unfold pad4
  have hz : isDig '0' = true := by decide
  split
  · intro c hc
    rcases List.mem_cons.mp hc with rfl | hc; · exact hz
    rcases List.mem_cons.mp hc with rfl | hc; · exact hz
    rcases List.mem_cons.mp hc with rfl | hc; · exact hz
    exact natToDigits_all_isDig n c hc
  split
  · intro c hc
    rcases List.mem_cons.mp hc with rfl | hc; · exact hz
    rcases List.mem_cons.mp hc with rfl | hc; · exact hz
    exact natToDigits_all_isDig n c hc
  split
  · intro c hc
    rcases List.mem_cons.mp hc with rfl | hc; · exact hz
    exact natToDigits_all_isDig n c hc
  · exact natToDigits_all_isDig n

lemma pad2_length {n : Nat} (h : n < 100) : (pad2 n).length = 2 := by
  unfold pad2
  split
  · rename_i h10
    rw [natToDigits_lt10 h10]
    rfl
  · rename_i h10
    exact natToDigits_length_two (by omega) h

lemma pad4_length {n : Nat} (h : n < 10000) : (pad4 n).length = 4 := by
  unfold pad4
  split
  · rename_i h10
    rw [natToDigits_lt10 h10]
    rfl
  split
  · rename_i h10 h100
    rw [List.length_cons, List.length_cons, natToDigits_length_two (by omega) h100]
  split
  · rename_i h10 h100 h1000
    rw [List.length_cons, natToDigits_length_three (by omega) h1000]
  · rename_i h10 h100 h1000
    exact natToDigits_length_four (by omega) h

lemma fdiv_natCast (a b : Nat) : Int.fdiv (a : Int) (b : Int) = ((a / b : Nat) : Int) :=
  (Int.ofNat_fdiv a b).symm

lemma fmod_natCast (a b : Nat) : Int.fmod (a : Int) (b : Int) = ((a % b : Nat) : Int) :=
  (Int.ofNat_fmod a b).symm

lemma format_duration_natCast (s : Nat) :
    format_duration (some (s : Int)) = ⟨natToDigits (s / 60) ++ ':' :: pad2 (s % 60)⟩ := by
  show String.mk (intDec (Int.fdiv (s : Int) 60) ++ ':' :: pad2 (Int.fmod (s : Int) 60).toNat) = _
  rw [show (60 : Int) = ((60 : Nat) : Int) from rfl, fdiv_natCast, fmod_natCast]
  have h1 : intDec ((s / 60 : Nat) : Int) = natToDigits (s / 60) := by
    unfold intDec
    rw [if_neg (by omega : ¬ ((s / 60 : Nat) : Int) < 0)]
    congr 1
  have h2 : (((s % 60 : Nat) : Int)).toNat = s % 60 := by omega
  rw [h1, h2]

/-- C10.  The step-duration formatters round-trip: for every non-negative
integer number of seconds `s`, `_parse_duration (_format_duration s) = s`;
formatting `None` yields `''` and parsing `''` yields `None`. -/
theorem C10_duration_round_trip :
    (∀ s : Nat, parse_duration (format_duration (some (s : Int))) = some (s : Int)) ∧
    format_duration none = "" ∧ parse_duration "" = none := by
  refine ⟨?_, rfl, by decide⟩
  intro s
  rw [format_duration_natCast]
  set A := natToDigits (s / 60) with hA
  set B := pad2 (s % 60) with hB
  have hAdig : ∀ c ∈ A, isDig c = true := natToDigits_all_isDig (s / 60)
  have hBdig : ∀ c ∈ B, isDig c = true := pad2_all_isDig (s % 60)
  have hspace : ∀ c ∈ A ++ ':' :: B, isPySpace c = false := by
    intro c hc
    rcases List.mem_append.mp hc with h1 | h1
    · exact isPySpace_of_isDig (hAdig c h1)
    · rcases List.mem_cons.mp h1 with rfl | h2
      · decide
      · exact isPySpace_of_isDig (hBdig c h2)
  have hvA : pyIntOfChars A = some (digitsToNat A : Int) :=
    pyIntOfChars_digits (by rw [hA]; exact natToDigits_ne_nil _) hAdig
  have hBne : B ≠ [] := by
    intro hnil
    have hlen := pad2_length (show s % 60 < 100 by omega)
    rw [← hB, hnil] at hlen
    simp at hlen
  have hvB : pyIntOfChars B = some (digitsToNat B : Int) :=
    pyIntOfChars_digits hBne hBdig
  unfold parse_duration
  rw [show (String.mk (A ++ ':' :: B)).data = A ++ ':' :: B from rfl]
  rw [stripChars_eq_self hspace]
  dsimp only
  rw [if_neg (by rw [isEmpty_append_cons]; exact Bool.false_ne_true)]
  rw [if_pos (contains_append_cons_self A ':' B)]
  rw [splitFirst_append (fun c hc => beq_colon_of_isDig (hAdig c hc))]
  dsimp only
  rw [hvA, hvB]
  show some _ = _
  rw [hA, hB, digitsToNat_natToDigits, digitsToNat_pad2]
  have hmod := Nat.div_add_mod s 60
  congr 1
  omega

/-! ### Lemmas about the date formatters -/

lemma length_two_chars : ∀ {l : List Char}, l.length = 2 → ∃ a b, l = [a, b] := by
  intro l h
  rcases l with _ | ⟨a, _ | ⟨b, _ | ⟨c, t⟩⟩⟩
  · simp at h
  · simp at h
  · exact ⟨a, b, rfl⟩
  · simp at h

lemma length_four_chars : ∀ {l : List Char}, l.length = 4 →
    ∃ a b c d, l = [a, b, c, d] := by
  intro l h
  rcases l with _ | ⟨a, _ | ⟨b, _ | ⟨c, _ | ⟨d, _ | ⟨e, t⟩⟩⟩⟩⟩
  · simp at h
  · simp at h
  · simp at h
  · simp at h
  · exact ⟨a, b, c, d, rfl⟩
  · simp at h

lemma daysInMonth_le (y m : Nat) : daysInMonth y m ≤ 31 := by
  unfold daysInMonth
  split
  · split <;> omega
  · split <;> omega

lemma validB_spec {d : PyDate} (h : d.validB = true) :
    1 ≤ d.year ∧ d.year ≤ 9999 ∧ 1 ≤ d.month ∧ d.month ≤ 12 ∧
      1 ≤ d.day ∧ d.day ≤ daysInMonth d.year d.month := by
  simp only [PyDate.validB, Bool.and_eq_true, decide_eq_true_eq] at h
  tauto

lemma date_fromisoformat_isoformat (dt : PyDate) (h : dt.validB = true) :
    date_fromisoformat (date_isoformat dt) = some dt := by
  obtain ⟨hy1', hy2', hm1', hm2', hd1', hd2'⟩ := validB_spec h
  have hy4 : dt.year < 10000 := by omega
  have hm2 : dt.month < 100 := by omega
  have hd2 : dt.day < 100 := by
    have := daysInMonth_le dt.year dt.month
    omega
  obtain ⟨y1, y2, y3, y4, hY⟩ := length_four_chars (pad4_length hy4)
  obtain ⟨m1, m2, hM⟩ := length_two_chars (pad2_length hm2)
  obtain ⟨d1, d2, hD⟩ := length_two_chars (pad2_length hd2)
  have hdata : (date_isoformat dt).data = [y1, y2, y3, y4, '-', m1, m2, '-', d1, d2] := by
    show pad4 dt.year ++ '-' :: pad2 dt.month ++ '-' :: pad2 dt.day = _
    rw [hY, hM, hD]
    rfl
  have hYdig : ∀ c ∈ [y1, y2, y3, y4], isDig c = true := by
    intro c hc
    exact pad4_all_isDig dt.year c (by rw [hY]; exact hc)
  have hMdig : ∀ c ∈ [m1, m2], isDig c = true := by
    intro c hc
    exact pad2_all_isDig dt.month c (by rw [hM]; exact hc)
  have hDdig : ∀ c ∈ [d1, d2], isDig c = true := by
    intro c hc
    exact pad2_all_isDig dt.day c (by rw [hD]; exact hc)
  have hall : ([y1, y2, y3, y4, m1, m2, d1, d2].all isDig) = true := by
    simp only [List.all_eq_true]
    intro c hc
    simp only [List.mem_cons, List.not_mem_nil, or_false] at hc
    rcases hc with rfl | rfl | rfl | rfl | rfl | rfl | rfl | rfl
    · exact hYdig c (by simp)
    · exact hYdig c (by simp)
    · exact hYdig c (by simp)
    · exact hYdig c (by simp)
    · exact hMdig c (by simp)
    · exact hMdig c (by simp)
    · exact hDdig c (by simp)
    · exact hDdig c (by simp)
  have hYv : digitsToNat [y1, y2, y3, y4] = dt.year := by
    rw [← hY]; exact digitsToNat_pad4 _
  have hMv : digitsToNat [m1, m2] = dt.month := by
    rw [← hM]; exact digitsToNat_pad2 _
  have hDv : digitsToNat [d1, d2] = dt.day := by
    rw [← hD]; exact digitsToNat_pad2 _
  unfold date_fromisoformat
  rw [hdata]
  dsimp only
  split
  · rw [hYv, hMv, hDv]
    rw [show ({ year := dt.year, month := dt.month, day := dt.day } : PyDate) = dt from rfl]
    rw [if_pos h]
  · rename_i hcond
    exact absurd (by rw [hall]; decide) hcond

/-! ### Generic list lemmas for the storage layer -/

lemma find?_map_update {α : Type} (p : α → Bool) (u : α → α) (l : List α)
    (hu : ∀ a, p a = true → p (u a) = true) (x : α) (h : l.find? p = some x) :
    (l.map (fun a => if p a then u a else a)).find? p = some (u x) := by
  induction l with
  | nil => simp at h
  | cons a t ih =>
    by_cases hp : p a = true
    · rw [List.find?_cons_of_pos _ hp] at h
      injection h with h
      subst h
      simp only [List.map_cons, if_pos hp]
      rw [List.find?_cons_of_pos _ (hu a hp)]
    · rw [List.find?_cons_of_neg _ (by simpa using hp)] at h
      simp only [List.map_cons, if_neg hp]
      rw [List.find?_cons_of_neg _ (by simpa using hp)]
      exact ih h

lemma filter_eq_nil_of {α : Type} {p : α → Bool} {l : List α}
    (h : ∀ a ∈ l, p a = false) : l.filter p = [] := by
  induction l with
  | nil => rfl
  | cons a t ih =>
    rw [List.filter_cons, if_neg (by simp [h a (by simp)])]
    exact ih (fun b hb => h b (by simp [hb]))

lemma filter_eq_self_of {α : Type} {p : α → Bool} {l : List α}
    (h : ∀ a ∈ l, p a = true) : l.filter p = l := by
  induction l with
  | nil => rfl
  | cons a t ih =>
    rw [List.filter_cons, if_pos (by simp [h a (by simp)])]
    rw [ih (fun b hb => h b (by simp [hb]))]

lemma filter_map_of_pres {α : Type} (p : α → Bool) (u : α → α) (l : List α)
    (h : ∀ a, p (u a) = p a) : (l.map u).filter p = (l.filter p).map u := by
  induction l with
  | nil => rfl
  | cons a t ih =>
    simp only [List.map_cons, List.filter_cons, h a]
    by_cases hp : p a = true
    · rw [if_pos (by simp [hp]), if_pos (by simp [hp]), List.map_cons, ih]
    · rw [if_neg (by simp_all), if_neg (by simp_all), ih]

lemma any_eq_false_of {α : Type} {p : α → Bool} {l : List α}
    (h : ∀ a ∈ l, p a = false) : l.any p = false := by
  induction l with
  | nil => rfl
  | cons a t ih =>
    simp only [List.any_cons, h a (by simp), Bool.false_or]
    exact ih (fun b hb => h b (by simp [hb]))

/-! ### Lemmas about the storage operations -/

lemma applyRollUpdate_id (r roll : Roll) : (applyRollUpdate r roll).id = r.id := rfl

lemma get_roll_update_roll {db : DB} {rid : Nat} {r : Roll} (roll' : Roll)
    (hid : roll'.id = some rid) (h : get_roll db rid = some r) :
    get_roll (update_roll db roll') rid = some (applyRollUpdate r roll') := by
  unfold get_roll update_roll at *
  have hfun : (fun x : Roll => if roll'.id.isSome && (x.id == roll'.id)
      then applyRollUpdate x roll' else x)
      = (fun x : Roll => if (x.id == some rid) then applyRollUpdate x roll' else x) := by
    funext x
    rw [hid]
    rfl
  rw [hfun]
  exact find?_map_update (fun x : Roll => x.id == some rid)
    (fun x => applyRollUpdate x roll') db.rolls
    (fun a ha => by
      show ((applyRollUpdate a roll').id == some rid) = true
      rwa [applyRollUpdate_id]) r h

lemma update_roll_frames (db : DB) (roll : Roll) :
    (update_roll db roll).frames = db.frames := rfl

lemma update_roll_film_stocks (db : DB) (roll : Roll) :
    (update_roll db roll).film_stocks = db.film_stocks := rfl

lemma get_roll_set_roll_frames_lens (db : DB) (rid rid' : Nat) (l : Option Nat) :
    get_roll (set_roll_frames_lens db rid' l) rid = get_roll db rid := rfl

lemma save_roll_development_rolls (db : DB) (dev : RollDevelopment)
    (steps : List DevelopmentStep) :
    (save_roll_development db dev steps).1.rolls = db.rolls := by
  unfold save_roll_development
  cases dev.id <;> dsimp only <;> split <;> rfl

lemma get_roll_save_roll_development (db : DB) (dev : RollDevelopment)
    (steps : List DevelopmentStep) (rid : Nat) :
    get_roll (save_roll_development db dev steps).1 rid = get_roll db rid := by
  unfold get_roll
  rw [save_roll_development_rolls]

/-! ### Concrete fixtures used by witness and counterexample theorems -/

/-- A concrete analog film stock: 3 frames per roll, 5 rolls on hand. -/
def wStock : FilmStock :=
  { id := some 1, user_id := 1, brand := "Kodak", name := "Gold",
    frames_per_roll := 3, quantity_on_hand := 5 }

/-- An unsaved roll record referencing `wStock`, as `action_new_roll`
builds it. -/
def wFreshRoll : Roll := { user_id := 1, film_stock_id := 1 }

/-- A stored roll that has reached status `finished`. -/
def wFinishedRoll : Roll :=
  { id := some 1, user_id := 1, film_stock_id := 1, status := "finished" }

/-- A store holding `wStock` and `wFinishedRoll` with three frames. -/
def wDB : DB :=
  { film_stocks := [wStock]
    rolls := [wFinishedRoll]
    frames :=
      [{ id := some 1, roll_id := 1, frame_number := 1 },
       { id := some 2, roll_id := 1, frame_number := 2 },
       { id := some 3, roll_id := 1, frame_number := 3 }]
    next_stock_id := 2
    next_roll_id := 2
    next_frame_id := 4 }

/-- An unsaved self-development record, as `SelfDevelopModal` builds it. -/
def wSelfDev : RollDevelopment := { dev_type := "self", process_type := some "B&W" }

/-- An unsaved lab-development record, as `LabDevelopModal` builds it. -/
def wLabDev : RollDevelopment := { dev_type := "lab", lab_name := some "Acme Lab" }

/-- A concrete development step. -/
def wStep : DevelopmentStep :=
  { chemical_name := "Developer", temperature := "20C", duration_seconds := some 480 }

/-- A concrete date for "today". -/
def wDate : PyDate := { year := 2025, month := 1, day := 5 }

/-! ### Claims C2 and C3: roll creation -/

/-- C2.  For every FilmStock with `frames_per_roll = N > 0`, creating a
roll inserts exactly N Frame rows numbered `1..N`, each seeded with the
roll's pre-selected default lens (null lens if none); `frames_per_roll =
0` inserts zero frames.  (Stated for any integer `N`: `Int.toNat`
sends `N ≤ 0` to an empty range, exactly as `range(1, N + 1)` does.) -/
theorem C2_create_roll_frames (db : DB) (roll : Roll) (n : Int)
    (hfresh : ∀ f ∈ db.frames, f.roll_id ≠ db.next_roll_id) :
    (get_frames (create_roll db roll n).1 (create_roll db roll n).2).map
        (fun f => (f.frame_number, f.lens_id))
      = (List.range n.toNat).map (fun i => (i + 1, roll.lens_id)) := by
  unfold create_roll get_frames
  dsimp only
  rw [List.filter_append]
  rw [filter_eq_nil_of (fun f hf => by
    simp only [beq_eq_false_iff_ne, ne_eq]
    exact hfresh f hf)]
  rw [List.nil_append]
  rw [filter_eq_self_of (fun f hf => by
    obtain ⟨i, hi, rfl⟩ := List.mem_map.mp hf
    simp)]
  rw [List.map_map]
  rfl

/-- C3.  Creating a roll from a FilmStock whose `quantity_on_hand` is `q`
leaves that stock's `quantity_on_hand` at `max (q - 1) 0`; in particular
`q = 0` stays `0`, and the quantity never becomes negative. -/
theorem C3_create_roll_decrement (db : DB) (roll : Roll) (n : Int) (stock : FilmStock)
    (hs : get_film_stock db roll.film_stock_id = some stock) :
    get_film_stock (create_roll db roll n).1 roll.film_stock_id
      = some { stock with quantity_on_hand := max (stock.quantity_on_hand - 1) 0 } ∧
    (0 : Int) ≤ max (stock.quantity_on_hand - 1) 0 ∧
    (stock.quantity_on_hand = 0 → max (stock.quantity_on_hand - 1) 0 = 0) := by
  refine ⟨?_, le_max_right _ _, fun h0 => by rw [h0]; decide⟩
  unfold get_film_stock at hs
  unfold create_roll get_film_stock
  dsimp only
  exact find?_map_update (fun s => s.id == some roll.film_stock_id)
    (fun s => { s with quantity_on_hand := max (s.quantity_on_hand - 1) 0 })
    db.film_stocks (fun a ha => ha) stock hs

theorem C2_witness :
    (∀ f ∈ wDB.frames, f.roll_id ≠ wDB.next_roll_id) ∧
    (get_frames (create_roll wDB wFreshRoll 3).1 (create_roll wDB wFreshRoll 3).2).map
        (fun f => (f.frame_number, f.lens_id))
      = (List.range (3 : Int).toNat).map (fun i => (i + 1, wFreshRoll.lens_id)) :=
  ⟨by decide, C2_create_roll_frames wDB wFreshRoll 3 (by decide)⟩

theorem C3_witness :
    get_film_stock wDB wFreshRoll.film_stock_id = some wStock ∧
    (get_film_stock (create_roll wDB wFreshRoll 3).1 wFreshRoll.film_stock_id
      = some { wStock with quantity_on_hand := max (wStock.quantity_on_hand - 1) 0 } ∧
    (0 : Int) ≤ max (wStock.quantity_on_hand - 1) 0 ∧
    (wStock.quantity_on_hand = 0 → max (wStock.quantity_on_hand - 1) 0 = 0)) :=
  ⟨by decide, C3_create_roll_decrement wDB wFreshRoll 3 wStock (by decide)⟩

/-- A stored lab development row for roll 1. -/
def wDevRow : RollDevelopment :=
  { id := some 1, roll_id := 1, dev_type := "lab", lab_name := some "Acme Lab" }

/-- A stored step belonging to `wDevRow` before a re-save. -/
def wOldStep : DevelopmentStep :=
  { id := some 1, development_id := 1, step_order := 0, chemical_name := "OldChem" }

/-- `wDB` with `wDevRow` and its step stored. -/
def wDBdev : DB :=
  { wDB with
    roll_development := [wDevRow]
    development_steps := [wOldStep]
    next_dev_id := 2
    next_step_id := 2 }

/-- An unsaved second development payload for roll 1. -/
def wSecondDev : RollDevelopment :=
  { dev_type := "self", process_type := some "B&W", roll_id := 1 }

/-! ### Claims C6 and C7: the one-development-per-roll constraint and
re-saving -/

/-- C6.  Inserting a second RollDevelopment for a roll that already has
one raises the storage layer's uniqueness constraint error — never a
silent overwrite — and the committed state (the original record and its
steps included) is unchanged by the failed attempt. -/
theorem C6_second_development_insert_raises (db : DB) (dev : RollDevelopment)
    (steps : List DevelopmentStep) (d0 : RollDevelopment) (hid : dev.id = none)
    (hmem : d0 ∈ db.roll_development) (hr : d0.roll_id = dev.roll_id) :
    save_roll_development db dev steps = (db, .error .constraintViolation) := by
  have hany : db.roll_development.any (fun d => d.roll_id == dev.roll_id) = true :=
    List.any_eq_true.mpr ⟨d0, hmem, by simp [hr]⟩
  unfold save_roll_development
  rw [hid]
  dsimp only
  rw [if_pos hany]

/-- C7.  Re-saving development details for a roll that already has a
RollDevelopment (the record carries its id) updates the existing record's
fields — exactly one RollDevelopment row for the roll remains — and
wholesale-replaces its step list: all previous steps of the record are
deleted and the supplied list is re-inserted with `step_order` assigned
densely `0..n-1` from list position, never appending to the old steps. -/
theorem C7_resave_replaces_record_and_steps (db : DB) (dev : RollDevelopment)
    (steps : List DevelopmentStep) (dev_id : Nat) (d0 : RollDevelopment)
    (hid : dev.id = some dev_id) (hd0 : d0.id = some dev_id)
    (hone : db.roll_development.filter (fun d => d.roll_id == d0.roll_id) = [d0]) :
    (save_roll_development db dev steps).2 = .ok dev_id ∧
    (save_roll_development db dev steps).1.roll_development.filter
        (fun d => d.roll_id == d0.roll_id)
      = [{ d0 with
           dev_type := dev.dev_type
           process_type := dev.process_type
           lab_name := dev.lab_name
           lab_contact := dev.lab_contact
           cost_amount := dev.cost_amount
           notes := dev.notes }] ∧
    (get_development_steps (save_roll_development db dev steps).1 dev_id).map
        (fun s => (s.step_order, s.chemical_name, s.temperature, s.duration_seconds,
          s.agitation, s.notes))
      = steps.enum.map (fun p => (p.1, p.2.chemical_name, p.2.temperature,
          p.2.duration_seconds, p.2.agitation, p.2.notes)) := by
  have hmem : d0 ∈ db.roll_development := by
    refine List.mem_of_mem_filter (p := fun d => d.roll_id == d0.roll_id) ?_
    rw [hone]
    exact List.mem_singleton.mpr rfl
  have hany : db.roll_development.any (fun d => d.id == some dev_id) = true :=
    List.any_eq_true.mpr ⟨d0, hmem, by simp [hd0]⟩
  have hcond : ((!db.roll_development.any (fun d => d.id == some dev_id))
      && !steps.isEmpty) = false := by
    rw [hany]
    rfl
  unfold save_roll_development
  rw [hid]
  dsimp only
  rw [if_neg (by rw [hcond]; exact Bool.false_ne_true)]
  refine ⟨rfl, ?_, ?_⟩
  · dsimp only
    rw [filter_map_of_pres _ _ _ (fun a => by
      by_cases hia : (a.id == some dev_id) = true
      · rw [if_pos hia]
        rfl
      · rw [if_neg hia])]
    rw [hone, List.map_singleton, if_pos (by rw [hd0]; exact beq_self_eq_true _)]
    rfl
  · unfold get_development_steps
    dsimp only
    rw [List.filter_append]
    rw [filter_eq_nil_of (fun s hs => by
      have := (List.mem_filter.mp hs).2
      simp only [Bool.not_eq_true'] at this
      exact this)]
    rw [List.nil_append]
    rw [filter_eq_self_of (fun s hs => by
      obtain ⟨p, hp, rfl⟩ := List.mem_map.mp hs
      simp [insertedSteps])]
    unfold insertedSteps
    rw [List.map_map]
    rfl

theorem C6_witness :
    (wSecondDev.id = none ∧ wDevRow ∈ wDBdev.roll_development ∧
      wDevRow.roll_id = wSecondDev.roll_id) ∧
    save_roll_development wDBdev wSecondDev [wStep]
      = (wDBdev, .error .constraintViolation) :=
  ⟨⟨rfl, by decide, rfl⟩,
    C6_second_development_insert_raises wDBdev wSecondDev [wStep] wDevRow
      rfl (by decide) rfl⟩

/-- A re-save payload carrying the stored record's id, as §4.2's
insert-or-update contract keys it. -/
def wResave : RollDevelopment := { wSelfDev with id := some 1, roll_id := 1 }

theorem C7_witness :
    (wResave.id = some 1 ∧ wDevRow.id = some 1 ∧
      wDBdev.roll_development.filter (fun d => d.roll_id == wDevRow.roll_id) = [wDevRow]) ∧
    ((save_roll_development wDBdev wResave [wStep]).2 = .ok 1 ∧
    (save_roll_development wDBdev wResave [wStep]).1.roll_development.filter
        (fun d => d.roll_id == wDevRow.roll_id)
      = [{ wDevRow with
           dev_type := wResave.dev_type
           process_type := wResave.process_type
           lab_name := wResave.lab_name
           lab_contact := wResave.lab_contact
           cost_amount := wResave.cost_amount
           notes := wResave.notes }] ∧
    (get_development_steps (save_roll_development wDBdev wResave [wStep]).1 1).map
        (fun s => (s.step_order, s.chemical_name, s.temperature, s.duration_seconds,
          s.agitation, s.notes))
      = [wStep].enum.map (fun p => (p.1, p.2.chemical_name, p.2.temperature,
          p.2.duration_seconds, p.2.agitation, p.2.notes))) :=
  ⟨⟨rfl, rfl, by decide⟩,
    C7_resave_replaces_record_and_steps wDBdev wResave [wStep] 1 wDevRow rfl rfl (by decide)⟩

/-! ### Claim C9: deleting a roll -/

/-- C9.  Deleting a roll removes all of its Frame rows and the Roll row;
its RollDevelopment record and that record's DevelopmentStep rows are
removed by the storage layer's cascade rule (no application statement
touches those tables — see `delete_roll`); and the referenced FilmStock
rows are untouched, so the create-time quantity decrement is not
reversed. -/
theorem C9_delete_roll_cascades (db : DB) (rid : Nat) (dev : RollDevelopment)
    (hdev : dev ∈ db.roll_development) (hroll : dev.roll_id = rid) :
    (∀ f ∈ (delete_roll db rid).frames, f.roll_id ≠ rid) ∧
    get_roll (delete_roll db rid) rid = none ∧
    get_roll_development_by_roll (delete_roll db rid) rid = none ∧
    (∀ s ∈ (delete_roll db rid).development_steps, dev.id ≠ some s.development_id) ∧
    (delete_roll db rid).film_stocks = db.film_stocks := by
  unfold delete_roll
  dsimp only
  refine ⟨?_, ?_, ?_, ?_, rfl⟩
  · intro f hf
    have h2 := (List.mem_filter.mp hf).2
    simpa using h2
  · unfold get_roll
    dsimp only
    refine List.find?_eq_none.mpr ?_
    intro r hr
    have h2 := (List.mem_filter.mp hr).2
    simpa using h2
  · unfold get_roll_development_by_roll
    dsimp only
    refine List.find?_eq_none.mpr ?_
    intro d hd
    have h2 := (List.mem_filter.mp hd).2
    simpa using h2
  · intro s hs heq
    have hmemf : dev ∈ db.roll_development.filter (fun d => d.roll_id == rid) :=
      List.mem_filter.mpr ⟨hdev, by simp [hroll]⟩
    have h2 := (List.mem_filter.mp hs).2
    rw [Bool.not_eq_true'] at h2
    have htrue : (db.roll_development.filter (fun d => d.roll_id == rid)).any
        (fun d => d.id == some s.development_id) = true :=
      List.any_eq_true.mpr ⟨dev, hmemf, by simp [heq]⟩
    rw [htrue] at h2
    exact absurd h2 (by simp)

theorem C9_witness :
    (wDevRow ∈ wDBdev.roll_development ∧ wDevRow.roll_id = 1) ∧
    ((∀ f ∈ (delete_roll wDBdev 1).frames, f.roll_id ≠ 1) ∧
      get_roll (delete_roll wDBdev 1) 1 = none ∧
      get_roll_development_by_roll (delete_roll wDBdev 1) 1 = none ∧
      (∀ s ∈ (delete_roll wDBdev 1).development_steps,
        wDevRow.id ≠ some s.development_id) ∧
      (delete_roll wDBdev 1).film_stocks = wDBdev.film_stocks) :=
  ⟨⟨by decide, rfl⟩, C9_delete_roll_cascades wDBdev 1 wDevRow (by decide) rfl⟩

/-! ### Claim C1: atomicity of the multi-call screen flows -/

lemma save_roll_development_insert (db : DB) (dev : RollDevelopment)
    (steps : List DevelopmentStep) (hid : dev.id = none)
    (hnone : db.roll_development.any (fun d => d.roll_id == dev.roll_id) = false) :
    save_roll_development db dev steps =
      ({ db with
         roll_development := db.roll_development ++ [{ dev with id := some db.next_dev_id }]
         development_steps :=
           db.development_steps ++ insertedSteps db.next_dev_id db.next_step_id steps
         next_dev_id := db.next_dev_id + 1
         next_step_id := db.next_step_id + steps.length }, .ok db.next_dev_id) := by
  unfold save_roll_development
  rw [hid]
  dsimp only
  rw [if_neg (by rw [hnone]; exact Bool.false_ne_true)]

/-- C1 counterexample.  The enter-development flow is not atomic as
claimed: on the concrete store `wDB` (one `finished` roll), a failure in
the flow's second storage call (`failAt = some 1`, the `update_roll`)
leaves a committed state that is neither the initial one nor the full
effect — a RollDevelopment row exists for roll 1 while roll 1's status
was never advanced past `finished`. -/
theorem C1_counterexample :
    enterDevelopmentFlow wDB wFinishedRoll wSelfDev [wStep] wDate (some 1) ≠ wDB ∧
    enterDevelopmentFlow wDB wFinishedRoll wSelfDev [wStep] wDate (some 1)
      ≠ enterDevelopmentFlow wDB wFinishedRoll wSelfDev [wStep] wDate none ∧
    (∃ d ∈ (enterDevelopmentFlow wDB wFinishedRoll wSelfDev [wStep] wDate
        (some 1)).roll_development, d.roll_id = 1) ∧
    (get_roll (enterDevelopmentFlow wDB wFinishedRoll wSelfDev [wStep] wDate (some 1)) 1).map
      (fun r => r.status) = some "finished" := by
  decide

/-- C1 (amended).  Each storage-layer call is individually atomic: a
failure in a flow's first call (`failAt = some 0`) leaves the committed
state exactly as it was, for enter-development and for load alike.  But
both flows span two separately committed storage calls, so a failure in
the second call leaves the first call's writes committed: for
enter-development, the RollDevelopment row exists while the roll's
status and dates are untouched; for load, the roll is committed as
`loaded` while its frames' lenses are unchanged. -/
theorem C1_amended_per_call_commits (db : DB) (rid : Nat) (roll : Roll)
    (dev : RollDevelopment) (steps : List DevelopmentStep) (today : PyDate)
    (camera_id : Nat) (lens_id : Option Nat) (push_pull : Int) (location : String)
    (hid : roll.id = some rid) (hget : get_roll db rid = some roll)
    (hdev : dev.id = none)
    (hnodev : ∀ d ∈ db.roll_development, d.roll_id ≠ rid) :
    enterDevelopmentFlow db roll dev steps today (some 0) = db ∧
    ((∃ d ∈ (enterDevelopmentFlow db roll dev steps today (some 1)).roll_development,
        d.roll_id = rid) ∧
      get_roll (enterDevelopmentFlow db roll dev steps today (some 1)) rid = some roll) ∧
    loadRollFlow db rid roll camera_id lens_id push_pull location today (some 0) = db ∧
    ((get_roll (loadRollFlow db rid roll camera_id lens_id push_pull location today
        (some 1)) rid).map (fun r => r.status) = some "loaded" ∧
      (loadRollFlow db rid roll camera_id lens_id push_pull location today
        (some 1)).frames = db.frames) := by
  have hgetd : roll.id.getD 0 = rid := by rw [hid]; rfl
  have hnone : db.roll_development.any
      (fun d => d.roll_id == ({ dev with roll_id := roll.id.getD 0 } : RollDevelopment).roll_id)
      = false := by
    refine any_eq_false_of (fun d hd => ?_)
    show (d.roll_id == roll.id.getD 0) = false
    rw [hgetd]
    simp only [beq_eq_false_iff_ne, ne_eq]
    exact hnodev d hd
  have hsave := save_roll_development_insert db
    { dev with roll_id := roll.id.getD 0 } steps hdev hnone
  refine ⟨?_, ⟨?_, ?_⟩, ?_, ?_, ?_⟩
  · unfold enterDevelopmentFlow
    rw [if_pos rfl]
  · unfold enterDevelopmentFlow
    rw [if_neg (by simp)]
    rw [hsave]
    dsimp only
    rw [if_pos rfl]
    refine ⟨{ { dev with roll_id := roll.id.getD 0 } with id := some db.next_dev_id }, ?_, hgetd⟩
    exact List.mem_append_right _ (List.mem_singleton.mpr rfl)
  · unfold enterDevelopmentFlow
    rw [if_neg (by simp)]
    rw [hsave]
    dsimp only
    rw [if_pos rfl]
    exact hget
  · unfold loadRollFlow
    rw [if_pos rfl]
  · unfold loadRollFlow
    rw [if_neg (by simp), if_pos rfl]
    rw [get_roll_update_roll _ (by rw [← hid]) hget]
    rfl
  · unfold loadRollFlow
    rw [if_neg (by simp), if_pos rfl]
    rfl

theorem C1_witness :
    (wFinishedRoll.id = some 1 ∧ get_roll wDB 1 = some wFinishedRoll ∧
      wSelfDev.id = none ∧ (∀ d ∈ wDB.roll_development, d.roll_id ≠ 1)) ∧
    (enterDevelopmentFlow wDB wFinishedRoll wSelfDev [wStep] wDate (some 0) = wDB ∧
    ((∃ d ∈ (enterDevelopmentFlow wDB wFinishedRoll wSelfDev [wStep] wDate
        (some 1)).roll_development, d.roll_id = 1) ∧
      get_roll (enterDevelopmentFlow wDB wFinishedRoll wSelfDev [wStep] wDate (some 1)) 1
        = some wFinishedRoll) ∧
    loadRollFlow wDB 1 wFinishedRoll 7 (some 9) 2 "Home" wDate (some 0) = wDB ∧
    ((get_roll (loadRollFlow wDB 1 wFinishedRoll 7 (some 9) 2 "Home" wDate (some 1)) 1).map
        (fun r => r.status) = some "loaded" ∧
      (loadRollFlow wDB 1 wFinishedRoll 7 (some 9) 2 "Home" wDate (some 1)).frames
        = wDB.frames)) :=
  ⟨⟨rfl, by decide, rfl, by decide⟩,
    C1_amended_per_call_commits wDB 1 wFinishedRoll wSelfDev [wStep] wDate 7 (some 9) 2
      "Home" rfl (by decide) rfl (by decide)⟩

/-! ### Claim C4: the two development completions -/

/-- C4.  From a `finished` roll, completing self-development through the
advance action sets the roll's status to `developed` with both
`sent_for_dev_date` and `developed_date` stamped to the same current
date; completing lab development sets status to `developing` with only
`sent_for_dev_date` stamped, `developed_date` staying as it was (unset
until the lab-return advance). -/
theorem C4_development_stamps (db : DB) (rid : Nat) (roll : Roll)
    (dev : RollDevelopment) (steps : List DevelopmentStep) (today : PyDate)
    (hget : get_roll db rid = some roll) (hid : roll.id = some rid)
    (hst : roll.status = "finished") (hdev : dev.id = none)
    (hnodev : ∀ d ∈ db.roll_development, d.roll_id ≠ rid) :
    (dev.dev_type = "self" →
      ∃ r', get_roll (action_advance_status db rid none (some dev.dev_type)
          (some (dev, steps)) today none) rid = some r' ∧
        r'.status = "developed" ∧
        r'.sent_for_dev_date = some (date_isoformat today) ∧
        r'.developed_date = some (date_isoformat today)) ∧
    (dev.dev_type = "lab" →
      ∃ r', get_roll (action_advance_status db rid none (some dev.dev_type)
          (some (dev, steps)) today none) rid = some r' ∧
        r'.status = "developing" ∧
        r'.sent_for_dev_date = some (date_isoformat today) ∧
        r'.developed_date = roll.developed_date) := by
  have hgetd : roll.id.getD 0 = rid := by rw [hid]; rfl
  have hnone : db.roll_development.any
      (fun d => d.roll_id == ({ dev with roll_id := roll.id.getD 0 } : RollDevelopment).roll_id)
      = false := by
    refine any_eq_false_of (fun d hd => ?_)
    show (d.roll_id == roll.id.getD 0) = false
    rw [hgetd]
    simp only [beq_eq_false_iff_ne, ne_eq]
    exact hnodev d hd
  have hsave := save_roll_development_insert db
    { dev with roll_id := roll.id.getD 0 } steps hdev hnone
  have hAdv : action_advance_status db rid none (some dev.dev_type)
      (some (dev, steps)) today none = enterDevelopmentFlow db roll dev steps today none := by
    unfold action_advance_status
    rw [hget]
    dsimp only
    rw [hst]
    rw [if_neg (by decide : ¬ ((("finished" : String) == "fresh") = true))]
    rw [show ROLL_STATUSES.findIdx? (fun st => st == "finished") = some 3 from by decide]
    dsimp only
    rw [if_neg (by decide : ¬ (ROLL_STATUSES.length - 1 ≤ 3))]
    rw [if_pos (by decide : ((ROLL_STATUSES.getD (3 + 1) "" == "developing") = true))]
    rfl
  rw [hAdv]
  unfold enterDevelopmentFlow
  rw [if_neg (by simp)]
  rw [hsave]
  dsimp only
  rw [if_neg (by simp)]
  constructor
  · intro hself
    rw [hself, if_pos (by decide : ((("self" : String) == "self") = true))]
    refine ⟨_, get_roll_update_roll _ (by rw [← hid]) hget, rfl, rfl, rfl⟩
  · intro hlab
    rw [hlab, if_neg (by decide : ¬ ((("lab" : String) == "self") = true))]
    refine ⟨_, get_roll_update_roll _ (by rw [← hid]) hget, rfl, rfl, rfl⟩

theorem C4_witness :
    (get_roll wDB 1 = some wFinishedRoll ∧ wFinishedRoll.id = some 1 ∧
      wFinishedRoll.status = "finished" ∧ wSelfDev.id = none ∧
      (∀ d ∈ wDB.roll_development, d.roll_id ≠ 1)) ∧
    ((wSelfDev.dev_type = "self" →
      ∃ r', get_roll (action_advance_status wDB 1 none (some wSelfDev.dev_type)
          (some (wSelfDev, [wStep])) wDate none) 1 = some r' ∧
        r'.status = "developed" ∧
        r'.sent_for_dev_date = some (date_isoformat wDate) ∧
        r'.developed_date = some (date_isoformat wDate)) ∧
    (wSelfDev.dev_type = "lab" →
      ∃ r', get_roll (action_advance_status wDB 1 none (some wSelfDev.dev_type)
          (some (wSelfDev, [wStep])) wDate none) 1 = some r' ∧
        r'.status = "developing" ∧
        r'.sent_for_dev_date = some (date_isoformat wDate) ∧
        r'.developed_date = wFinishedRoll.developed_date)) :=
  ⟨⟨by decide, rfl, rfl, rfl, by decide⟩,
    C4_development_stamps wDB 1 wFinishedRoll wSelfDev [wStep] wDate
      (by decide) rfl rfl rfl (by decide)⟩

/-! ### Claim C5: the advance state machine -/

/-- The immediate successor of a status in `ROLL_STATUSES` (spec-side
helper used to state the step bound of the advance action). -/
def nextStatus (s : String) : Option String :=
  (ROLL_STATUSES.findIdx? (fun st => st == s)).bind (fun i => ROLL_STATUSES.get? (i + 1))

/-- C5 counterexample.  Advancing the concrete `finished` roll of `wDB`
with self-development chosen moves its status two steps along
`ROLL_STATUSES` (from `finished` straight to `developed`, skipping
`developing`), so an advance does not always move exactly one step: the
resulting status is neither the old status nor its immediate successor. -/
theorem C5_counterexample :
    (get_roll wDB 1).map (fun r => r.status) = some "finished" ∧
    (get_roll (action_advance_status wDB 1 none (some "self")
        (some (wSelfDev, [wStep])) wDate none) 1).map (fun r => r.status)
      = some "developed" ∧
    nextStatus "finished" = some "developing" ∧
    ¬ (("developed" : String) = "finished" ∨
        nextStatus "finished" = some ("developed" : String)) := by
  decide

/-- C5 (amended).  A roll's status only ever holds values of the fixed
sequence `ROLL_STATUSES` and never moves backward: every advance leaves
the status unchanged, moves it to its immediate successor, or — only for
a `finished` roll whose development is completed as self-development —
jumps two steps to `developed`.  Advancing a `fresh` roll at the engine
boundary (load declined or cancelled) is a no-op with no writes at all,
as is advancing past `developed`. -/
theorem C5_amended_forward_only (db : DB) (rid : Nat) (roll : Roll)
    (freshLoad : Option LoadInput) (devChoice : Option String)
    (devModal : Option (RollDevelopment × List DevelopmentStep)) (today : PyDate)
    (failAt : Option Nat) (hget : get_roll db rid = some roll)
    (hid : roll.id = some rid) (hmem : roll.status ∈ ROLL_STATUSES) :
    (roll.status = "fresh" → freshLoad = none →
      action_advance_status db rid freshLoad devChoice devModal today failAt = db) ∧
    (roll.status = "developed" →
      action_advance_status db rid freshLoad devChoice devModal today failAt = db) ∧
    (∀ r', get_roll (action_advance_status db rid freshLoad devChoice devModal today
        failAt) rid = some r' →
      r'.status ∈ ROLL_STATUSES ∧
      (r'.status = roll.status ∨ nextStatus roll.status = some r'.status ∨
        (roll.status = "finished" ∧ r'.status = "developed"))) := by
  simp only [ROLL_STATUSES, List.mem_cons, List.not_mem_nil, or_false] at hmem
  rcases hmem with h | h | h | h | h | h
  · -- roll.status = "fresh"
    refine ⟨?_, fun hf => absurd (h.symm.trans hf) (by decide), ?_⟩
    · intro _ hfl
      unfold action_advance_status
      rw [hget]
      dsimp only
      rw [h, if_pos (by decide : ((("fresh" : String) == "fresh") = true)), hfl]
    · intro r' hr'
      unfold action_advance_status at hr'
      rw [hget] at hr'
      dsimp only at hr'
      rw [h, if_pos (by decide : ((("fresh" : String) == "fresh") = true))] at hr'
      cases freshLoad with
      | none =>
        rw [hget] at hr'
        injection hr' with hr'
        subst hr'
        exact ⟨by rw [h]; decide, Or.inl rfl⟩
      | some li =>
        dsimp only at hr'
        unfold loadRollFlow at hr'
        by_cases hf0 : failAt = some 0
        · rw [if_pos hf0, hget] at hr'
          injection hr' with hr'
          subst hr'
          exact ⟨by rw [h]; decide, Or.inl rfl⟩
        · rw [if_neg hf0] at hr'
          by_cases hf1 : failAt = some 1
          · rw [if_pos hf1, get_roll_update_roll _ (by rw [← hid]) hget] at hr'
            injection hr' with hr'
            subst hr'
            exact ⟨(by decide : ("loaded" : String) ∈ ROLL_STATUSES),
              Or.inr (Or.inl (by
                rw [h]
                exact (by decide : nextStatus "fresh" = some ("loaded" : String))))⟩
          · rw [if_neg hf1, get_roll_set_roll_frames_lens,
              get_roll_update_roll _ (by rw [← hid]) hget] at hr'
            injection hr' with hr'
            subst hr'
            exact ⟨(by decide : ("loaded" : String) ∈ ROLL_STATUSES),
              Or.inr (Or.inl (by
                rw [h]
                exact (by decide : nextStatus "fresh" = some ("loaded" : String))))⟩
  · -- roll.status = "loaded"
    refine ⟨fun hf _ => absurd (h.symm.trans hf) (by decide),
      fun hf => absurd (h.symm.trans hf) (by decide), ?_⟩
    intro r' hr'
    unfold action_advance_status at hr'
    rw [hget] at hr'
    dsimp only at hr'
    rw [h, if_neg (by decide : ¬ ((("loaded" : String) == "fresh") = true))] at hr'
    rw [show ROLL_STATUSES.findIdx? (fun st => st == "loaded") = some 1 from by decide]
      at hr'
    dsimp only at hr'
    rw [if_neg (by decide : ¬ (ROLL_STATUSES.length - 1 ≤ 1))] at hr'
    rw [if_neg (by decide :
      ¬ ((ROLL_STATUSES.getD (1 + 1) "" == "developing") = true))] at hr'
    by_cases hf0 : failAt = some 0
    · rw [if_pos hf0, hget] at hr'
      injection hr' with hr'
      subst hr'
      exact ⟨by rw [h]; decide, Or.inl rfl⟩
    · rw [if_neg hf0] at hr'
      rw [get_roll_update_roll _ (by rw [← hid]) hget] at hr'
      injection hr' with hr'
      subst hr'
      exact ⟨(by decide : ("shooting" : String) ∈ ROLL_STATUSES),
              Or.inr (Or.inl (by
                rw [h]
                exact (by decide : nextStatus "loaded" = some ("shooting" : String))))⟩
  · -- roll.status = "shooting"
    refine ⟨fun hf _ => absurd (h.symm.trans hf) (by decide),
      fun hf => absurd (h.symm.trans hf) (by decide), ?_⟩
    intro r' hr'
    unfold action_advance_status at hr'
    rw [hget] at hr'
    dsimp only at hr'
    rw [h, if_neg (by decide : ¬ ((("shooting" : String) == "fresh") = true))] at hr'
    rw [show ROLL_STATUSES.findIdx? (fun st => st == "shooting") = some 2 from by decide]
      at hr'
    dsimp only at hr'
    rw [if_neg (by decide : ¬ (ROLL_STATUSES.length - 1 ≤ 2))] at hr'
    rw [if_neg (by decide :
      ¬ ((ROLL_STATUSES.getD (2 + 1) "" == "developing") = true))] at hr'
    by_cases hf0 : failAt = some 0
    · rw [if_pos hf0, hget] at hr'
      injection hr' with hr'
      subst hr'
      exact ⟨by rw [h]; decide, Or.inl rfl⟩
    · rw [if_neg hf0] at hr'
      rw [get_roll_update_roll _ (by rw [← hid]) hget] at hr'
      injection hr' with hr'
      subst hr'
      exact ⟨(by decide : ("finished" : String) ∈ ROLL_STATUSES),
              Or.inr (Or.inl (by
                rw [h]
                exact (by decide : nextStatus "shooting" = some ("finished" : String))))⟩
  · -- roll.status = "finished"
    refine ⟨fun hf _ => absurd (h.symm.trans hf) (by decide),
      fun hf => absurd (h.symm.trans hf) (by decide), ?_⟩
    intro r' hr'
    unfold action_advance_status at hr'
    rw [hget] at hr'
    dsimp only at hr'
    rw [h, if_neg (by decide : ¬ ((("finished" : String) == "fresh") = true))] at hr'
    rw [show ROLL_STATUSES.findIdx? (fun st => st == "finished") = some 3 from by decide]
      at hr'
    dsimp only at hr'
    rw [if_neg (by decide : ¬ (ROLL_STATUSES.length - 1 ≤ 3))] at hr'
    rw [if_pos (by decide :
      ((ROLL_STATUSES.getD (3 + 1) "" == "developing") = true))] at hr'
    unfold startDevelopingFlow at hr'
    cases devChoice with
    | none =>
      rw [hget] at hr'
      injection hr' with hr'
      subst hr'
      exact ⟨by rw [h]; decide, Or.inl rfl⟩
    | some c =>
      cases devModal with
      | none =>
        rw [hget] at hr'
        injection hr' with hr'
        subst hr'
        exact ⟨by rw [h]; decide, Or.inl rfl⟩
      | some pr =>
        obtain ⟨dev, steps⟩ := pr
        dsimp only at hr'
        unfold enterDevelopmentFlow at hr'
        by_cases hf0 : failAt = some 0
        · rw [if_pos hf0, hget] at hr'
          injection hr' with hr'
          subst hr'
          exact ⟨by rw [h]; decide, Or.inl rfl⟩
        · rw [if_neg hf0] at hr'
          rcases hsv : save_roll_development db
            { dev with roll_id := roll.id.getD 0 } steps with ⟨db1, res⟩
          rw [hsv] at hr'
          have hrolls : db1.rolls = db.rolls := by
            have hr := save_roll_development_rolls db
              { dev with roll_id := roll.id.getD 0 } steps
            rw [hsv] at hr
            exact hr
          have hget1 : get_roll db1 rid = some roll := by
            unfold get_roll
            rw [hrolls]
            exact hget
          cases res with
          | error e =>
            dsimp only at hr'
            rw [hget] at hr'
            injection hr' with hr'
            subst hr'
            exact ⟨by rw [h]; decide, Or.inl rfl⟩
          | ok k =>
            dsimp only at hr'
            by_cases hf1 : failAt = some 1
            · rw [if_pos hf1, hget1] at hr'
              injection hr' with hr'
              subst hr'
              exact ⟨by rw [h]; decide, Or.inl rfl⟩
            · rw [if_neg hf1] at hr'
              by_cases hty : (dev.dev_type == "self") = true
              · rw [if_pos hty, get_roll_update_roll _ (by rw [← hid]) hget1] at hr'
                injection hr' with hr'
                subst hr'
                exact ⟨(by decide : ("developed" : String) ∈ ROLL_STATUSES),
                  Or.inr (Or.inr ⟨h, rfl⟩)⟩
              · rw [if_neg hty, get_roll_update_roll _ (by rw [← hid]) hget1] at hr'
                injection hr' with hr'
                subst hr'
                exact ⟨(by decide : ("developing" : String) ∈ ROLL_STATUSES),
              Or.inr (Or.inl (by
                rw [h]
                exact (by decide : nextStatus "finished" = some ("developing" : String))))⟩
  · -- roll.status = "developing"
    refine ⟨fun hf _ => absurd (h.symm.trans hf) (by decide),
      fun hf => absurd (h.symm.trans hf) (by decide), ?_⟩
    intro r' hr'
    unfold action_advance_status at hr'
    rw [hget] at hr'
    dsimp only at hr'
    rw [h, if_neg (by decide : ¬ ((("developing" : String) == "fresh") = true))] at hr'
    rw [show ROLL_STATUSES.findIdx? (fun st => st == "developing") = some 4 from by decide]
      at hr'
    dsimp only at hr'
    rw [if_neg (by decide : ¬ (ROLL_STATUSES.length - 1 ≤ 4))] at hr'
    rw [if_neg (by decide :
      ¬ ((ROLL_STATUSES.getD (4 + 1) "" == "developing") = true))] at hr'
    by_cases hf0 : failAt = some 0
    · rw [if_pos hf0, hget] at hr'
      injection hr' with hr'
      subst hr'
      exact ⟨by rw [h]; decide, Or.inl rfl⟩
    · rw [if_neg hf0] at hr'
      rw [get_roll_update_roll _ (by rw [← hid]) hget] at hr'
      injection hr' with hr'
      subst hr'
      exact ⟨(by decide : ("developed" : String) ∈ ROLL_STATUSES),
              Or.inr (Or.inl (by
                rw [h]
                exact (by decide : nextStatus "developing" = some ("developed" : String))))⟩
  · -- roll.status = "developed"
    have hact : action_advance_status db rid freshLoad devChoice devModal today failAt
        = db := by
      unfold action_advance_status
      rw [hget]
      dsimp only
      rw [h, if_neg (by decide : ¬ ((("developed" : String) == "fresh") = true))]
      rw [show ROLL_STATUSES.findIdx? (fun st => st == "developed") = some 5 from by decide]
      dsimp only
      rw [if_pos (by decide : ROLL_STATUSES.length - 1 ≤ 5)]
    refine ⟨fun hf _ => absurd (h.symm.trans hf) (by decide), fun _ => hact, ?_⟩
    intro r' hr'
    rw [hact, hget] at hr'
    injection hr' with hr'
    subst hr'
    exact ⟨by rw [h]; decide, Or.inl rfl⟩

theorem C5_witness :
    (get_roll wDB 1 = some wFinishedRoll ∧ wFinishedRoll.id = some 1 ∧
      wFinishedRoll.status ∈ ROLL_STATUSES) ∧
    ((wFinishedRoll.status = "fresh" → (none : Option LoadInput) = none →
      action_advance_status wDB 1 none (some "self") (some (wSelfDev, [wStep])) wDate none
        = wDB) ∧
    (wFinishedRoll.status = "developed" →
      action_advance_status wDB 1 none (some "self") (some (wSelfDev, [wStep])) wDate none
        = wDB) ∧
    (∀ r', get_roll (action_advance_status wDB 1 none (some "self")
        (some (wSelfDev, [wStep])) wDate none) 1 = some r' →
      r'.status ∈ ROLL_STATUSES ∧
      (r'.status = wFinishedRoll.status ∨
        nextStatus wFinishedRoll.status = some r'.status ∨
        (wFinishedRoll.status = "finished" ∧ r'.status = "developed")))) :=
  ⟨⟨by decide, rfl, by decide⟩,
    C5_amended_forward_only wDB 1 wFinishedRoll none (some "self")
      (some (wSelfDev, [wStep])) wDate none (by decide) rfl (by decide)⟩

/-! ### Claim C8: validation at the development and scan entry points -/

/-- C8.  Validation rejections: a lab development with a blank lab name
is rejected; a self development whose step list is empty after
discarding blank-chemical rows is rejected — and a rejected or cancelled
modal reaches no storage call, so no RollDevelopment is persisted; a
scan whose date does not parse is rejected with no write, while a blank
scan date defaults to today's date. -/
theorem C8_validation :
    (∀ lab_name lab_contact cost notes, pyStrip lab_name = "" →
      labDevelopModalSave lab_name lab_contact cost notes = none) ∧
    (∀ process rows notes, (∀ row ∈ rows, pyStrip row.chemical = "") →
      selfDevelopModalSave process rows notes = none) ∧
    (∀ db roll devChoice today failAt,
      startDevelopingFlow db roll devChoice none today failAt = db) ∧
    (∀ dateInput notes today, pyStrip dateInput ≠ "" →
      date_fromisoformat (pyStrip dateInput) = none →
      scanRollModalSave dateInput notes today = none) ∧
    (∀ db roll failAt, scanRollFlow db roll none failAt = db) ∧
    (∀ notes today, PyDate.validB today = true →
      scanRollModalSave "" notes today = some (date_isoformat today, pyStrip notes)) := by
  refine ⟨?_, ?_, ?_, ?_, ?_, ?_⟩
  · intro lab_name lab_contact cost notes hblank
    unfold labDevelopModalSave
    rw [hblank]
    rfl
  · intro process rows notes hrows
    unfold selfDevelopModalSave
    have hfm : rows.filterMap (fun row =>
        let chemical := pyStrip row.chemical
        if chemical == "" then none
        else some
          ({ chemical_name := chemical
             temperature := pyStrip row.temp
             duration_seconds := parse_duration (pyStrip row.duration)
             agitation := pyStrip row.agitation } : DevelopmentStep)) = [] := by
      refine List.filterMap_eq_nil_iff.mpr (fun row hrow => ?_)
      dsimp only
      rw [hrows row hrow]
      rfl
    rw [hfm]
    rfl
  · intro db roll devChoice today failAt
    cases devChoice <;> rfl
  · intro dateInput notes today hne hparse
    unfold scanRollModalSave
    dsimp only
    rw [if_neg (by simpa using hne)]
    rw [hparse]
  · intro db roll failAt
    rfl
  · intro notes today hval
    unfold scanRollModalSave
    dsimp only
    rw [if_pos (by decide : ((pyStrip "" == "") = true))]
    rw [date_fromisoformat_isoformat today hval]

theorem C8_witness :
    (pyStrip " " = "" ∧ labDevelopModalSave " " "c" (some 1250) "n" = none) ∧
    ((∀ row ∈
        [({ chemical := " ", temp := "20C", duration := "1:00", agitation := "inv" }
          : StepRowInput)],
        pyStrip row.chemical = "") ∧
      selfDevelopModalSave (some "B&W")
        [{ chemical := " ", temp := "20C", duration := "1:00", agitation := "inv" }]
        "x" = none) ∧
    startDevelopingFlow wDB wFinishedRoll (some "self") none wDate none = wDB ∧
    (pyStrip "2025-13-01" ≠ "" ∧ date_fromisoformat "2025-13-01" = none ∧
      scanRollModalSave "2025-13-01" "n" wDate = none) ∧
    scanRollFlow wDB wFinishedRoll none none = wDB ∧
    (PyDate.validB wDate = true ∧
      scanRollModalSave "" " n " wDate = some (date_isoformat wDate, pyStrip " n ")) :=
  ⟨⟨by decide, C8_validation.1 " " "c" (some 1250) "n" (by decide)⟩,
   ⟨by decide, C8_validation.2.1 (some "B&W")
      [{ chemical := " ", temp := "20C", duration := "1:00", agitation := "inv" }]
      "x" (by decide)⟩,
   C8_validation.2.2.1 wDB wFinishedRoll (some "self") wDate none,
   ⟨by decide, by decide,
     C8_validation.2.2.2.1 "2025-13-01" "n" wDate (by decide) (by decide)⟩,
   C8_validation.2.2.2.2.1 wDB wFinishedRoll none,
   ⟨by decide, C8_validation.2.2.2.2.2 " n " wDate (by decide)⟩⟩

end PJourney
